import Mathlib

/-!
Verification of the single-session Outlook browser-automation service
(`server.js`, `src/outlook-login.js`).

The JavaScript code is shallowly embedded: DOM access is abstracted to
pure page descriptions (which selectors match, body text, rendered list
items), JavaScript `Set`s of strings become insertion-ordered duplicate-free
lists, timestamps become naturals, and the `async` while-loops become
fuel-indexed recursive functions whose fuel is shown sufficient.
-/

/- ======================  JS string primitives  ====================== -/
/-- Boolean test that `pat` occurs at the start of `s` (character lists). -/
def listStartsWith : List Char → List Char → Bool
  | _, [] => true
  | [], _ :: _ => false
  | c :: cs, p :: ps => c == p && listStartsWith cs ps

/-- Boolean test that `pat` occurs somewhere inside `s`; models
JavaScript `String.prototype.includes`. -/
def listHasSub (pat : List Char) : List Char → Bool
  | [] => listStartsWith [] pat
  | c :: cs => listStartsWith (c :: cs) pat || listHasSub pat cs

/-- The test `strContains s pat` models the JavaScript expression `s.includes(pat)`. -/
def strContains (s pat : String) : Bool := listHasSub pat.data s.data

/-- ASCII lower-casing of one character, as `toLowerCase` acts on the
ASCII range used by the selectors and error patterns of the source. -/
def jsLowerChar (c : Char) : Char :=
  if 65 ≤ c.toNat ∧ c.toNat ≤ 90 then Char.ofNat (c.toNat + 32) else c

/-- Models JavaScript `s.toLowerCase()` on ASCII data. -/
def jsToLower (s : String) : String := ⟨s.data.map jsLowerChar⟩

/-- Models JavaScript `s.trim()`: strips whitespace from both ends. -/
def jsTrim (s : String) : String :=
  ⟨((s.data.dropWhile Char.isWhitespace).reverse.dropWhile Char.isWhitespace).reverse⟩

/-- Models `email.toLowerCase().trim()`, the normalisation applied to every
address before it is inserted into a harvest set
(`outlook-login.js` lines 2187, 2215, 2230, 2242). -/
def jsNormalize (s : String) : String := jsTrim (jsToLower s)

/- ======================  JS Set of strings  ====================== -/
/-- One `Set.add`: appends the element unless already present
(JavaScript `Set` keeps insertion order and ignores duplicates). -/
def setAdd (s : List String) (x : String) : List String :=
  if x ∈ s then s else s ++ [x]

/-- Models `xs.forEach(x => set.add(x))`. -/
def setAddAll (s : List String) (xs : List String) : List String :=
  xs.foldl setAdd s

/- ======================  ProviderDetector  ====================== -/
/-- The closed set of identity-provider kinds returned by
`detectLoginProvider` (`outlook-login.js` 945-984). -/
inductive Provider where
  | microsoft
  | adfs
  | okta
  | azureAd
  | genericSaml
  | unknown
deriving DecidableEq, Repr

/-- Shallow embedding of `detectLoginProvider` (`outlook-login.js` 945-984):
URL substring checks first, then title/body keyword checks, then the
same-domain fallback to `microsoft`, else `unknown`. -/
def detectLoginProvider (currentUrl pageText pageTitle : String) : Provider :=
  if strContains currentUrl "login.microsoftonline.com" ||
     strContains currentUrl "login.live.com" then .microsoft
  else if strContains currentUrl "adfs" || strContains currentUrl "sts" ||
          strContains currentUrl "fs." then .adfs
  else if strContains currentUrl "okta.com" || strContains currentUrl ".okta." then .okta
  else if strContains currentUrl "microsoftonline.com" &&
          !strContains currentUrl "login.microsoftonline.com" then .azureAd
  else if strContains (jsToLower pageTitle) "adfs" ||
          strContains (jsToLower pageText) "active directory" then .adfs
  else if strContains (jsToLower pageTitle) "okta" ||
          strContains (jsToLower pageText) "okta" then .okta
  else if strContains (jsToLower pageText) "saml" ||
          strContains (jsToLower pageText) "single sign" then .genericSaml
  else if strContains currentUrl "microsoft" || strContains currentUrl "office" then .microsoft
  else .unknown

/- ======================  ListHarvester (extractEmailsFromFolder)  ====================== -/
/-- The address set built inside one opened message by the
`page.evaluate` of `extractEmailData` (`outlook-login.js` 2177-2248):
every address-shaped match `m` (from body text, header selectors,
`aria-label`s and `title`s, given here as the raw list `raw`) is added to
a fresh `Set` as `m.toLowerCase().trim()`, and the set is returned as an
array in insertion order. -/
def extractEmailData (raw : List String) : List String :=
  setAddAll [] (raw.map jsNormalize)

/-- The return value of `extractEmailData` (`outlook-login.js` 2334):
`foundEmails.length > 0 ? foundEmails : null`. -/
def extractEmailDataRet (raw : List String) : Option (List String) :=
  if (extractEmailData raw).length > 0 then some (extractEmailData raw) else none

/-- Mutable state of the scan loop of `extractEmailsFromFolder`
(`outlook-login.js` 1983-1985): the deduplicating address set, the count
of already-processed items, and the `consecutiveEmptyBatches` counter. -/
structure HarvestState where
  allEmailAddresses : List String
  totalProcessed : Nat
  consecutiveEmptyBatches : Nat
deriving DecidableEq, Repr

/-- The constant `maxEmptyBatches` (`outlook-login.js` 1986). -/
def maxEmptyBatches : Nat := 25

/-- The inner `for` loop (`outlook-login.js` 2005-2032): each not-yet
processed item is opened and the addresses `extractEmailData` returns
for it (if any) are added to the set. -/
def processItems (set : List String) (toProcess : List (List String)) : List String :=
  toProcess.foldl (fun acc raw =>
    match extractEmailDataRet raw with
    | some es => setAddAll acc es
    | none => acc) set

/-- One iteration of the `while` loop of `extractEmailsFromFolder`
(`outlook-login.js` 1990-2145) against a static page: the rendered list
is always exactly `items` (the rendered-item count never grows), so the
scroll block never finds new items.  If unprocessed items exist they are
all processed and `consecutiveEmptyBatches` resets only when the set
grew; otherwise the counter is incremented once for having nothing to
process.  The scroll attempt then increments the counter once more,
since the re-measured count equals the old count. -/
def harvestStep (items : List (List String)) (s : HarvestState) : HarvestState :=
  let n := items.length
  let s1 : HarvestState :=
    if s.totalProcessed < n then
      let initialSize := s.allEmailAddresses.length
      let newSet := processItems s.allEmailAddresses (items.drop s.totalProcessed)
      { allEmailAddresses := newSet
        totalProcessed := n
        consecutiveEmptyBatches :=
          if initialSize < newSet.length then 0 else s.consecutiveEmptyBatches }
    else
      { s with consecutiveEmptyBatches := s.consecutiveEmptyBatches + 1 }
  { s1 with consecutiveEmptyBatches := s1.consecutiveEmptyBatches + 1 }

/-- Fuel-indexed unfolding of `while (consecutiveEmptyBatches < maxEmptyBatches)`
(`outlook-login.js` 1990).  Returns the final state, the number of loop
iterations executed (one scroll attempt each), and whether the loop
genuinely exited through its guard (`true`) rather than by fuel
exhaustion. -/
def harvestLoopFuel (items : List (List String)) :
    Nat → HarvestState → HarvestState × Nat × Bool
  | 0, s => (s, 0, decide (maxEmptyBatches ≤ s.consecutiveEmptyBatches))
  | fuel + 1, s =>
    if s.consecutiveEmptyBatches < maxEmptyBatches then
      let r := harvestLoopFuel items fuel (harvestStep items s)
      (r.1, r.2.1 + 1, r.2.2)
    else (s, 0, true)

/-- A full folder pass over a static rendered list, from the fresh state
of `outlook-login.js` 1983-1985. -/
def harvestFolderPass (items : List (List String)) (fuel : Nat) :
    HarvestState × Nat × Bool :=
  harvestLoopFuel items fuel ⟨[], 0, 0⟩

/- ======================  CredentialSubmitter  ====================== -/
/-- Abstract login page: which CSS selectors currently match an element,
the text content of the first element matching a selector, and the body
text. -/
structure LoginPage where
  hasSelector : String → Bool
  queryText : String → Option String
  bodyText : String

/-- The list `errorSelectors` of `handleMicrosoftLogin` (`outlook-login.js` 1005-1012). -/
def msErrorSelectors : List String :=
  ["[data-bind*=\"errorText\"]", ".alert-error", ".error-message",
   "[role=\"alert\"]", ".ms-TextField-errorMessage", ".field-validation-error"]

/-- The list `errorPatterns` of `handleMicrosoftLogin` (`outlook-login.js` 1032-1039). -/
def msErrorPatterns : List String :=
  ["Your account or password is incorrect", "password is incorrect",
   "Sign-in was unsuccessful", "The username or password is incorrect",
   "Invalid credentials", "Authentication failed"]

/-- The selector scan of `handleMicrosoftLogin` (`outlook-login.js`
1015-1028): the first error selector whose element exists with
non-empty trimmed text supplies the error message. -/
def firstSelectorErrorText (page : LoginPage) : Option String :=
  msErrorSelectors.findSome? fun sel =>
    match page.queryText sel with
    | some t => if jsTrim t ≠ "" then some (jsTrim t) else none
    | none => none

/-- Shallow embedding of `handleMicrosoftLogin` (`outlook-login.js`
986-1060).  The password wait and the submit click must both find their
element (otherwise the underlying call throws and the boundary catch
returns `false`); after the click, the page is scanned for error
selectors and, afterwards, for lower-cased error text patterns (the
pattern scan runs even when a selector already matched and overwrites
the message); the handler succeeds only when no error was detected. -/
def handleMicrosoftLogin (page : LoginPage) : Bool :=
  if page.hasSelector "input[type=\"password\"]" then
    if page.hasSelector "input[type=\"submit\"]" then
      let selError := firstSelectorErrorText page
      let patError := msErrorPatterns.find? fun p =>
        strContains (jsToLower page.bodyText) (jsToLower p)
      let errorMessage : Option String :=
        match patError with
        | some p => some p
        | none => selError
      errorMessage.isNone
    else false
  else false

/-- The list `passwordSelectors` of `handleADFSLogin` (`outlook-login.js` 1067-1073). -/
def adfsPasswordSelectors : List String :=
  ["input[type=\"password\"]", "input[name=\"Password\"]",
   "input[name=\"password\"]", "#passwordInput", ".password-input"]

/-- The list `passwordSelectors` of `handleOktaLogin` (`outlook-login.js` 1140-1145). -/
def oktaPasswordSelectors : List String :=
  ["input[name=\"password\"]", "input[type=\"password\"]",
   ".okta-form-input-field input[type=\"password\"]", "#okta-signin-password"]

/-- The list `passwordSelectors` of `handleAzureADLogin` (`outlook-login.js` 1210-1215). -/
def azureAdPasswordSelectors : List String :=
  ["input[type=\"password\"]", "input[name=\"passwd\"]",
   "input[name=\"password\"]", "[data-testid=\"i0118\"]"]

/-- The list `passwordSelectors` of `handleGenericSAMLLogin` (`outlook-login.js` 1279-1286). -/
def samlPasswordSelectors : List String :=
  ["input[type=\"password\"]", "input[name=\"password\"]",
   "input[name=\"Password\"]", "input[name=\"passwd\"]",
   ".password", "#password"]

/-- Shallow embedding of `handleADFSLogin` (`outlook-login.js`
1062-1133): fails only when no password selector candidate matches;
once the password is typed, a submit candidate is clicked or the Enter
key is pressed as fallback, and the handler returns `true` without
inspecting the resulting page. -/
def handleADFSLogin (page : LoginPage) : Bool :=
  match adfsPasswordSelectors.find? page.hasSelector with
  | none => false
  | some _ => true

/-- Shallow embedding of `handleOktaLogin` (`outlook-login.js`
1135-1203); same shape as the ADFS handler: no page verification after
the submit click or Enter fallback. -/
def handleOktaLogin (page : LoginPage) : Bool :=
  match oktaPasswordSelectors.find? page.hasSelector with
  | none => false
  | some _ => true

/-- Shallow embedding of `handleAzureADLogin` (`outlook-login.js`
1205-1272); no page verification after submit. -/
def handleAzureADLogin (page : LoginPage) : Bool :=
  match azureAdPasswordSelectors.find? page.hasSelector with
  | none => false
  | some _ => true

/-- Shallow embedding of `handleGenericSAMLLogin` (`outlook-login.js`
1274-1347); no page verification after submit. -/
def handleGenericSAMLLogin (page : LoginPage) : Bool :=
  match samlPasswordSelectors.find? page.hasSelector with
  | none => false
  | some _ => true

/- ======================  BrowserHandle: close and init  ====================== -/
/-- The instance fields of `OutlookLoginAutomation` relevant to
`init`/`close` (`outlook-login.js` 5-9): whether `this.browser` and
`this.page` are non-null, and the `isClosing` in-progress flag. -/
structure HandleFields where
  browserSet : Bool
  pageSet : Bool
  isClosing : Bool
deriving DecidableEq, Repr

/-- The synchronous head of `close()` (`outlook-login.js` 592-599), up
to its first `await` suspension point: a call that observes `isClosing`
returns at once (`false` = does not proceed); otherwise it sets the flag
and proceeds into the teardown sequence. -/
def closeBegin (s : HandleFields) : HandleFields × Bool :=
  if s.isClosing then (s, false)
  else ({ s with isClosing := true }, true)

/-- The tail of `close()` (`outlook-login.js` 601-661): the teardown
plus the unconditional reset `browser = null; page = null;
isClosing = false`. -/
def closeFinish (_ : HandleFields) : HandleFields :=
  { browserSet := false, pageSet := false, isClosing := false }

/-- Two overlapping `close()` calls under the event-loop interleaving:
call A runs its synchronous head and suspends at the first `await`;
call B then runs its head; each call that proceeded finishes its
teardown.  Returns the final fields and how many teardown sequences
executed. -/
def overlappedClose (s : HandleFields) : HandleFields × Nat :=
  let a := closeBegin s
  let b := closeBegin a.1
  let s1 := if a.2 then closeFinish b.1 else b.1
  let s2 := if b.2 then closeFinish s1 else s1
  (s2, (if a.2 then 1 else 0) + (if b.2 then 1 else 0))

/-- Models `let retries = 3; while (retries > 0) ...` (`outlook-login.js`
94-113): the launch phase succeeds when one of the first three attempt
outcomes succeeds. -/
def launchSucceedsWithin3 (attempts : List Bool) : Bool :=
  (attempts.take 3).any id

/-- Shallow embedding of `init()` (`outlook-login.js` 12-152).  The
environment supplies the per-attempt launch outcomes and whether page
creation succeeds.  On page-creation failure the browser is closed and
both fields are nulled before the error propagates
(`outlook-login.js` 138-151); on launch failure after three attempts
the error propagates with the fields untouched. -/
def initModel (attempts : List Bool) (pageOk : Bool) (s : HandleFields) :
    HandleFields × Option String :=
  if launchSucceedsWithin3 attempts then
    if pageOk then (⟨true, true, s.isClosing⟩, none)
    else (⟨false, false, s.isClosing⟩, some "Failed to create new page")
  else (s, some "Failed to launch browser after 3 attempts")

/- ======================  SessionManager: idle-reaper sweep  ====================== -/
/-- The constant `SESSION_TIMEOUT` (`server.js` 19). -/
def SESSION_TIMEOUT : Nat := 30 * 60 * 1000

/-- The server-side `activeSession` record (`server.js` 151-158)
together with the `lastActivity` timestamp its automation object tracks
(`outlook-login.js` 10): the sweep can observe both, which lets us state
which one it actually consults. -/
structure ActiveSession where
  sessionId : String
  createdAt : Nat
  lastActivity : Nat
  inUse : Bool
deriving DecidableEq, Repr

/-- One tick of the idle-reaper `setInterval` (`server.js` 65-87): the
session is closed exactly when one exists, the session mutex is free, no
browser is being launched, `now - createdAt > SESSION_TIMEOUT`, and the
session is not marked in use.  Returns the surviving slot and whether a
close was performed. -/
def cleanupSweep (now : Nat) (active : Option ActiveSession)
    (mutexHeld initInProgress : Bool) : Option ActiveSession × Bool :=
  match active with
  | none => (none, false)
  | some s =>
    if mutexHeld = false ∧ initInProgress = false ∧
        SESSION_TIMEOUT < now - s.createdAt ∧ s.inUse = false then
      (none, true)
    else (some s, false)

/- ======================  scanAllEmails and the warning field  ====================== -/
/-- Environment of one folder pass: whether the list selector
(`[role="listbox"]`) ever appears at pass start, and the static rendered
items. -/
structure FolderEnv where
  listboxAppears : Bool
  items : List (List String)

/-- Shallow embedding of `extractEmailsFromFolder` as its caller sees it
(`outlook-login.js` 1976-2156): the whole body sits in one `try`; when
the list selector never appears, the initial `waitForSelector` throws,
the `catch` logs and returns a plain empty array — there is no error
component in the return value. -/
def extractEmailsFromFolderRun (env : FolderEnv) (fuel : Nat) : List String :=
  if env.listboxAppears then (harvestFolderPass env.items fuel).1.allEmailAddresses
  else []

/-- The value of `scanAllEmails` (`outlook-login.js` 1946-1974):
`{inbox, sent}` plus the `error` field set only by its own `catch`. -/
structure ScanAllResult where
  inbox : List String
  sent : List String
  error : Option String
deriving DecidableEq, Repr

/-- Shallow embedding of `scanAllEmails`: both folder passes and both
navigation helpers catch internally and never throw, so the `catch` of
`scanAllEmails` that would set `error` is not reached — the result
carries `error = none` no matter how the folder passes fared. -/
def scanAllEmails (inboxEnv sentEnv : FolderEnv) (fuel : Nat) : ScanAllResult :=
  { inbox := extractEmailsFromFolderRun inboxEnv fuel
    sent := extractEmailsFromFolderRun sentEnv fuel
    error := none }

/-- The route plumbing of `GET /api/emails/scan-all` (`server.js`
580-582): `response.warning` is populated from `allEmails.error` when
present. -/
def scanAllWarning (r : ScanAllResult) : Option String := r.error

/- ======================  getOrCreateSession  ====================== -/
/-- The server session record (`server.js` 151-158). -/
structure SrvSession where
  sessionId : String
  hasAutomation : Bool
  isPreloaded : Bool
  createdAt : Nat
  inUse : Bool
deriving DecidableEq, Repr

/-- A fresh single-mode session (`server.js` 150-158): id is
`Date.now().toString()`, no automation yet, not preloaded, not in use. -/
def freshSession (now : Nat) : SrvSession :=
  ⟨toString now, false, false, now, false⟩

/-- Shallow embedding of `getOrCreateSession` (`server.js` 117-167).
Result: the reported `(sessionId, isNew)` pair, the new slot content,
and how many times `automation.close()` was invoked.  The existing
session is reused only when a requested id is present (JavaScript
truthiness: the empty string does not count), and equals the active
id of the active session; otherwise the automation of the active session (if any) is
closed and the slot is replaced wholesale. -/
def getOrCreateSession (now : Nat) (requested : Option String)
    (active : Option SrvSession) :
    (String × Bool) × Option SrvSession × Nat :=
  match active with
  | some s =>
    match requested with
    | some rid =>
      if rid ≠ "" ∧ s.sessionId = rid then
        ((s.sessionId, false), some s, 0)
      else
        ((toString now, true), some (freshSession now),
          if s.hasAutomation then 1 else 0)
    | none =>
      ((toString now, true), some (freshSession now),
        if s.hasAutomation then 1 else 0)
  | none => ((toString now, true), some (freshSession now), 0)

/- ======================  harvestBccContacts loop  ====================== -/
/-- The constant `maxRounds` (`outlook-login.js` 1748). -/
def maxHarvestRounds : Nat := 50

/-- The constant `maxConsecutiveNoContacts` (`outlook-login.js` 1750). -/
def maxConsecutiveNoContacts : Nat := 3

/-- Processing the contact items of one round
(`outlook-login.js` 1821-1828): each found address is lower-cased and
added to the harvested set unless already present. -/
def bccRoundAdd (harvested contacts : List String) : List String :=
  contacts.foldl (fun acc email => setAdd acc (jsToLower email)) harvested

/-- Fuel-indexed unfolding of the harvest loop of `harvestBccContacts`
(`outlook-login.js` 1752-1864).  `env round` is `none` when no
suggestion container with visible contact items is found in that round
(which increments `consecutiveNoContacts`), otherwise the address
strings found in its items (which resets the counter to 0).
`harvestRound` increments on every iteration.  Returns the harvested
set, the final `harvestRound` value, and whether the loop exited through
its guard rather than by fuel exhaustion. -/
def bccLoopFuel (env : Nat → Option (List String)) :
    Nat → Nat → Nat → List String → List String × Nat × Bool
  | 0, round, noC, acc =>
    (acc, round,
      decide (¬ (round ≤ maxHarvestRounds ∧ noC < maxConsecutiveNoContacts)))
  | fuel + 1, round, noC, acc =>
    if round ≤ maxHarvestRounds ∧ noC < maxConsecutiveNoContacts then
      match env round with
      | none => bccLoopFuel env fuel (round + 1) (noC + 1) acc
      | some contacts => bccLoopFuel env fuel (round + 1) 0 (bccRoundAdd acc contacts)
    else (acc, round, true)

/-- The harvest loop entered from `harvestRound = 1`,
`consecutiveNoContacts = 0`, empty set, with fuel equal to `maxRounds`
(fuel is only a device: one unit is consumed per round, and the round
counter can take at most `maxRounds` values). -/
def harvestBccContactsRun (env : Nat → Option (List String)) :
    List String × Nat × Bool :=
  bccLoopFuel env maxHarvestRounds 1 0 []

/-- The whole of `harvestBccContacts` as its caller sees it
(`outlook-login.js` 1529-1944): the body sits in one `try`; if any step
throws (`raised`), the `catch` takes an error screenshot, presses
Escape, and returns an empty array instead of propagating. -/
def harvestBccContacts (raised : Bool) (env : Nat → Option (List String)) :
    List String :=
  if raised then [] else (harvestBccContactsRun env).1

/- ============  characterisation lemmas for the primitives  ============ -/
theorem listStartsWith_iff (pat s : List Char) :
    listStartsWith s pat = true ↔ ∃ t, s = pat ++ t := by
  induction pat generalizing s with
  | nil => simp [listStartsWith]
  | cons p ps ih =>
    cases s with
    | nil =>
      simp [listStartsWith]
    | cons c cs =>
      simp only [listStartsWith, Bool.and_eq_true, beq_iff_eq, ih, List.cons_append,
        List.cons.injEq]
      constructor
      · rintro ⟨rfl, t, rfl⟩
        exact ⟨t, rfl, rfl⟩
      · rintro ⟨t, rfl, rfl⟩
        exact ⟨rfl, t, rfl⟩

theorem listHasSub_iff (pat s : List Char) :
    listHasSub pat s = true ↔ ∃ pre post, s = pre ++ pat ++ post := by
  induction s with
  | nil =>
    cases pat with
    | nil => simp [listHasSub, listStartsWith]
    | cons p ps => simp [listHasSub, listStartsWith]
  | cons c cs ih =>
    simp only [listHasSub, Bool.or_eq_true, listStartsWith_iff, ih]
    constructor
    · rintro (⟨t, ht⟩ | ⟨pre, post, hpp⟩)
      · exact ⟨[], t, by simpa using ht⟩
      · exact ⟨c :: pre, post, by simp [hpp]⟩
    · rintro ⟨pre, post, hpp⟩
      cases pre with
      | nil => exact Or.inl ⟨post, by simpa using hpp⟩
      | cons d ds =>
        simp only [List.cons_append, List.cons.injEq] at hpp
        exact Or.inr ⟨ds, post, hpp.2⟩

theorem strContains_iff (s pat : String) :
    strContains s pat = true ↔ ∃ pre post, s.data = pre ++ pat.data ++ post :=
  listHasSub_iff pat.data s.data

/-- If a string contains `a` and `a` contains `b`, the string contains `b`. -/
theorem strContains_trans {u a b : String}
    (h₁ : strContains u a = true) (h₂ : strContains a b = true) :
    strContains u b = true := by
  rw [strContains_iff] at h₁ h₂ ⊢
  obtain ⟨p₁, s₁, hu⟩ := h₁
  obtain ⟨p₂, s₂, ha⟩ := h₂
  exact ⟨p₁ ++ p₂, s₂ ++ s₁, by simp [hu, ha]⟩

/-- A string built by appending to a string that contains `pat` still
contains `pat`. -/
theorem strContains_append_left {a : String} (b : String) {pat : String}
    (h : strContains a pat = true) : strContains (a ++ b) pat = true := by
  rw [strContains_iff] at h ⊢
  obtain ⟨pre, post, ha⟩ := h
  refine ⟨pre, post ++ b.data, ?_⟩
  show (a.data ++ b.data) = _
  simp [ha]

/-- C4 counterexample: a URL of the form `https://acme.okta.com/...` whose
path happens to contain the substring `adfs` is classified as `adfs`, not
`okta`, because the `adfs`/`sts`/`fs.` URL check precedes the Okta check. -/
theorem detectLoginProvider_okta_form_counterexample :
    detectLoginProvider ("https://acme.okta.com/" ++ "adfs") "" "" = Provider.adfs ∧
    detectLoginProvider ("https://acme.okta.com/" ++ "adfs") "" "" ≠ Provider.okta := by
  constructor <;> decide

/-- C4 (amended): URL evidence is applied before content evidence.
(1) Any URL containing `login.microsoftonline.com` yields `microsoft`
regardless of page text and title. (2) A URL of the form
`https://acme.okta.com/...` yields `okta` regardless of page text and
title, provided the full URL contains none of the earlier-precedence
URL patterns `login.microsoftonline.com`, `login.live.com`, `adfs`,
`sts`, `fs.`. (3) When no URL pattern and no title/body keyword matches,
the result is the same-domain fallback: `microsoft` if the URL contains
`microsoft` or `office`, else `unknown`. -/
theorem detectLoginProvider_url_precedence :
    (∀ url text title, strContains url "login.microsoftonline.com" = true →
      detectLoginProvider url text title = Provider.microsoft) ∧
    (∀ rest text title,
      strContains ("https://acme.okta.com/" ++ rest) "login.microsoftonline.com" = false →
      strContains ("https://acme.okta.com/" ++ rest) "login.live.com" = false →
      strContains ("https://acme.okta.com/" ++ rest) "adfs" = false →
      strContains ("https://acme.okta.com/" ++ rest) "sts" = false →
      strContains ("https://acme.okta.com/" ++ rest) "fs." = false →
      detectLoginProvider ("https://acme.okta.com/" ++ rest) text title = Provider.okta) ∧
    (∀ url text title,
      strContains url "microsoftonline.com" = false →
      strContains url "login.live.com" = false →
      strContains url "adfs" = false →
      strContains url "sts" = false →
      strContains url "fs." = false →
      strContains url "okta.com" = false →
      strContains url ".okta." = false →
      strContains (jsToLower title) "adfs" = false →
      strContains (jsToLower text) "active directory" = false →
      strContains (jsToLower title) "okta" = false →
      strContains (jsToLower text) "okta" = false →
      strContains (jsToLower text) "saml" = false →
      strContains (jsToLower text) "single sign" = false →
      detectLoginProvider url text title =
        (if strContains url "microsoft" || strContains url "office" then
          Provider.microsoft else Provider.unknown)) := by
  refine ⟨?_, ?_, ?_⟩
  · intro url text title h
    simp [detectLoginProvider, h]
  · intro rest text title h1 h2 h3 h4 h5
    have hok : strContains ("https://acme.okta.com/" ++ rest) "okta.com" = true :=
      strContains_append_left rest (by decide)
    simp [detectLoginProvider, h1, h2, h3, h4, h5, hok]
  · intro url text title h1 h2 h3 h4 h5 h6 h7 h8 h9 h10 h11 h12 h13
    have h1' : strContains url "login.microsoftonline.com" = false := by
      by_contra hc
      rw [Bool.not_eq_false] at hc
      have := strContains_trans hc (a := "login.microsoftonline.com")
        (b := "microsoftonline.com") (by decide)
      rw [this] at h1
      exact Bool.true_eq_false.mp h1
    simp [detectLoginProvider, h1, h1', h2, h3, h4, h5, h6, h7, h8, h9, h10, h11, h12, h13]

/-- C4 witness: the theorem applied at concrete inputs. -/
theorem detectLoginProvider_url_precedence_witness :
    detectLoginProvider "https://login.microsoftonline.com/common" "Okta sign in" "okta" =
      Provider.microsoft ∧
    detectLoginProvider ("https://acme.okta.com/" ++ "app/signin") "active directory" "ADFS" =
      Provider.okta ∧
    detectLoginProvider "https://portal.example.com/login" "welcome" "sign in page" =
      Provider.unknown := by
  refine ⟨?_, ?_, ?_⟩
  · exact detectLoginProvider_url_precedence.1 _ _ _ (by decide)
  · exact detectLoginProvider_url_precedence.2.1 "app/signin" _ _
      (by decide) (by decide) (by decide) (by decide) (by decide)
  · have h := detectLoginProvider_url_precedence.2.2
      "https://portal.example.com/login" "welcome" "sign in page"
      (by decide) (by decide) (by decide) (by decide) (by decide) (by decide) (by decide)
      (by decide) (by decide) (by decide) (by decide) (by decide) (by decide)
    rw [h]
    decide

/- ============  harvest lemmas  ============ -/
theorem setAdd_mem_iff (s : List String) (x y : String) :
    y ∈ setAdd s x ↔ y ∈ s ∨ y = x := by
  unfold setAdd
  split
  · rename_i hx
    constructor
    · exact Or.inl
    · rintro (h | rfl)
      · exact h
      · exact hx
  · simp

theorem setAddAll_mem_iff (s xs : List String) (y : String) :
    y ∈ setAddAll s xs ↔ y ∈ s ∨ y ∈ xs := by
  induction xs generalizing s with
  | nil => simp [setAddAll]
  | cons x xs ih =>
    show y ∈ setAddAll (setAdd s x) xs ↔ _
    rw [ih, setAdd_mem_iff]
    simp [or_assoc]

/-- Adding only already-present elements leaves a set unchanged. -/
theorem setAddAll_eq_of_subset (s : List String) (xs : List String)
    (h : ∀ x ∈ xs, x ∈ s) : setAddAll s xs = s := by
  induction xs generalizing s with
  | nil => rfl
  | cons x xs ih =>
    show setAddAll (setAdd s x) xs = s
    have hx : x ∈ s := h x (by simp)
    have : setAdd s x = s := by simp [setAdd, hx]
    rw [this]
    exact ih s fun y hy => h y (by simp [hy])

/-- Items whose extraction is empty contribute nothing. -/
theorem processItems_eq_of_empty (set : List String) (l : List (List String))
    (h : ∀ r ∈ l, extractEmailData r = []) : processItems set l = set := by
  induction l generalizing set with
  | nil => rfl
  | cons r rs ih =>
    have hr : extractEmailDataRet r = none := by
      simp [extractEmailDataRet, h r (by simp)]
    show processItems (match extractEmailDataRet r with
      | some es => setAddAll set es
      | none => set) rs = set
    rw [hr]
    exact ih set fun x hx => h x (by simp [hx])

theorem processItems_mem_mono (set : List String) (l : List (List String))
    (x : String) (hx : x ∈ set) : x ∈ processItems set l := by
  induction l generalizing set with
  | nil => exact hx
  | cons r rs ih =>
    show x ∈ processItems (match extractEmailDataRet r with
      | some es => setAddAll set es
      | none => set) rs
    cases hret : extractEmailDataRet r with
    | none => exact ih set hx
    | some es =>
      exact ih _ ((setAddAll_mem_iff set es x).mpr (Or.inl hx))

/-- Every address extracted from a processed item is in the resulting set. -/
theorem processItems_mem_of_item (set : List String) (l : List (List String))
    (r : List String) (hr : r ∈ l) (e : String) (he : e ∈ extractEmailData r) :
    e ∈ processItems set l := by
  induction l generalizing set with
  | nil => cases hr
  | cons a as ih =>
    show e ∈ processItems (match extractEmailDataRet a with
      | some es => setAddAll set es
      | none => set) as
    rcases List.mem_cons.mp hr with rfl | hmem
    · have hne : extractEmailData r ≠ [] := by
        intro hnil
        rw [hnil] at he
        cases he
      have hret : extractEmailDataRet r = some (extractEmailData r) := by
        unfold extractEmailDataRet
        rw [if_pos]
        exact List.length_pos.mpr hne
      rw [hret]
      exact processItems_mem_mono _ _ _ ((setAddAll_mem_iff _ _ _).mpr (Or.inr he))
    · cases hret : extractEmailDataRet a with
      | none => exact ih set hmem
      | some es => exact ih _ hmem

/-- When every rendered item is already processed, one loop iteration
advances `consecutiveEmptyBatches` twice: once because there is nothing
new to process (`outlook-login.js` 2045) and once because the scroll
attempt re-measures the same rendered count (`outlook-login.js` 2126). -/
theorem harvestStep_quiescent (items : List (List String)) (s : HarvestState)
    (h : items.length ≤ s.totalProcessed) :
    harvestStep items s =
      ⟨s.allEmailAddresses, s.totalProcessed, s.consecutiveEmptyBatches + 2⟩ := by
  have hn : ¬ s.totalProcessed < items.length := by omega
  cases s with
  | mk a t c => simp [harvestStep, hn]

/-- The first iteration from the fresh state processes every rendered
item and leaves the counter at 1: whether or not addresses were found,
the counter is 0 after the processing branch, and the fruitless scroll
adds 1. -/
theorem harvestStep_fresh (items : List (List String)) (h : items ≠ []) :
    harvestStep items ⟨[], 0, 0⟩ = ⟨processItems [] items, items.length, 1⟩ := by
  have hn : 0 < items.length := List.length_pos.mpr h
  simp [harvestStep, hn]

/-- Running the loop from a state with everything processed: each
iteration adds 2 to the counter, so it exits through its guard after
exactly `k` further iterations, where `k` is determined by the ceiling. -/
theorem harvestLoopFuel_quiescent (items : List (List String)) :
    ∀ (k F : Nat) (s : HarvestState),
      items.length ≤ s.totalProcessed →
      maxEmptyBatches ≤ s.consecutiveEmptyBatches + 2 * k →
      s.consecutiveEmptyBatches + 2 * k ≤ maxEmptyBatches + 1 →
      harvestLoopFuel items (k + F) s =
        (⟨s.allEmailAddresses, s.totalProcessed, s.consecutiveEmptyBatches + 2 * k⟩,
          k, true) := by
  intro k
  induction k with
  | zero =>
    intro F s hp h1 h2
    have hge : ¬ s.consecutiveEmptyBatches < maxEmptyBatches := by omega
    have hd : decide (maxEmptyBatches ≤ s.consecutiveEmptyBatches) = true := by
      simp only [decide_eq_true_eq]
      omega
    cases F with
    | zero =>
      show harvestLoopFuel items 0 s = _
      simp only [harvestLoopFuel, hd]
      cases s with
      | mk a t c => simp
    | succ F =>
      rw [Nat.zero_add]
      simp only [harvestLoopFuel, if_neg hge]
      cases s with
      | mk a t c => simp
  | succ k ih =>
    intro F s hp h1 h2
    have hlt : s.consecutiveEmptyBatches < maxEmptyBatches := by
      simp only [maxEmptyBatches] at h2 ⊢
      omega
    have harith : Nat.succ k + F = (k + F) + 1 := by omega
    rw [harith]
    simp only [harvestLoopFuel, if_pos hlt]
    rw [harvestStep_quiescent items s hp]
    rw [ih F ⟨s.allEmailAddresses, s.totalProcessed, s.consecutiveEmptyBatches + 2⟩
      hp (by simp; omega) (by simp; omega)]
    have h2k : s.consecutiveEmptyBatches + 2 + 2 * k =
        s.consecutiveEmptyBatches + 2 * Nat.succ k := by omega
    simp [h2k]

/-- Any folder pass over a static non-empty rendered list runs exactly
13 loop iterations: the first processes all items and leaves the counter
at 1 (reset applies only to a grown set, and the counter starts at 0
either way), and each of the 12 following iterations adds 2, crossing
the ceiling of 25 on the 13th. -/
theorem harvestFolderPass_static (items : List (List String)) (h : items ≠ [])
    (F : Nat) :
    harvestFolderPass items (13 + F) =
      (⟨processItems [] items, items.length, 25⟩, 13, true) := by
  show harvestLoopFuel items (13 + F) ⟨[], 0, 0⟩ = _
  have h13 : 13 + F = (12 + F) + 1 := by omega
  rw [h13]
  have hguard : (⟨[], 0, 0⟩ : HarvestState).consecutiveEmptyBatches < maxEmptyBatches := by
    decide
  simp only [harvestLoopFuel, if_pos hguard]
  rw [harvestStep_fresh items h]
  rw [harvestLoopFuel_quiescent items 12 F
    ⟨processItems [] items, items.length, 1⟩ (le_refl _)
    (by norm_num [maxEmptyBatches]) (by norm_num [maxEmptyBatches])]

/-- C1 counterexample: against a two-item rendered list that never grows
and whose items yield no addresses, the loop exits through its guard
after 13 scroll attempts, not 25: each fruitless iteration advances
`consecutiveEmptyBatches` twice (`outlook-login.js` 2045 and 2126). -/
theorem harvest_not_25_attempts_counterexample :
    (harvestFolderPass [[], []] 40).2.1 = 13 ∧
    (harvestFolderPass [[], []] 40).2.1 ≠ 25 ∧
    (harvestFolderPass [[], []] 40).2.2 = true ∧
    (harvestFolderPass [[], []] 40).1.consecutiveEmptyBatches = 25 := by
  refine ⟨by decide, by decide, by decide, by decide⟩

/-- C1 (amended): against a rendered list that never grows and whose
items yield no addresses, the loop terminates (`Exhausted`, guard false)
after exactly 13 scroll attempts — not earlier and not later, for any
surplus fuel — with the counter ending at 25 (26 for an initially empty
list, since its first iteration also has nothing to process).  The
ceiling of 25 is crossed in 13 iterations because every fruitless
iteration increments `consecutiveEmptyBatches` twice: once for having
no unprocessed items, once for the scroll attempt that grew nothing. -/
theorem harvest_quiescence (items : List (List String)) (F : Nat)
    (hE : ∀ r ∈ items, extractEmailData r = []) :
    harvestFolderPass items (13 + F) =
      (⟨[], items.length, if items.length = 0 then 26 else 25⟩, 13, true) := by
  rcases eq_or_ne items [] with rfl | hne
  · show harvestLoopFuel [] (13 + F) ⟨[], 0, 0⟩ = _
    have h13 : 13 + F = (12 + F) + 1 := by omega
    rw [h13]
    have hguard : (⟨[], 0, 0⟩ : HarvestState).consecutiveEmptyBatches < maxEmptyBatches := by
      decide
    simp only [harvestLoopFuel, if_pos hguard]
    have hstep : harvestStep [] ⟨[], 0, 0⟩ = ⟨[], 0, 2⟩ :=
      harvestStep_quiescent [] ⟨[], 0, 0⟩ (by simp)
    rw [hstep]
    rw [harvestLoopFuel_quiescent [] 12 F ⟨[], 0, 2⟩ (by simp)
      (by norm_num [maxEmptyBatches]) (by norm_num [maxEmptyBatches])]
    simp
  · rw [harvestFolderPass_static items hne F, processItems_eq_of_empty [] items hE]
    have hlen : items.length ≠ 0 := fun h0 => hne (List.length_eq_zero.mp h0)
    simp [hlen]

/-- C1 witness: the amended theorem applied to a concrete static
two-item list whose items yield nothing. -/
theorem harvest_quiescence_witness :
    harvestFolderPass [[], []] (13 + 27) = (⟨[], 2, 25⟩, 13, true) := by
  have h := harvest_quiescence [[], []] 27 (by decide)
  simpa using h

/-- C2: the harvested-address set is lowercased and deduplicated.
(1) Every address in an extraction result is the
`toLowerCase().trim()` image of one of the raw matches of the opened
item.  (2) Re-processing an item already present in the pass leaves the
accumulated set unchanged (dedup idempotence).  (3) The synthetic
scenario: items `[a@x.com, a@x.com, b@x.com]` with no further growth
harvests exactly the two-element set, in insertion order. -/
theorem harvest_dedup_lowercase :
    (∀ raw addr, addr ∈ extractEmailData raw → ∃ t ∈ raw, addr = jsNormalize t) ∧
    (∀ items d, d ∈ items →
      processItems [] (items ++ [d]) = processItems [] items) ∧
    harvestFolderPass [["a@x.com"], ["a@x.com"], ["b@x.com"]] 20 =
      (⟨["a@x.com", "b@x.com"], 3, 25⟩, 13, true) := by
  refine ⟨?_, ?_, by decide⟩
  · intro raw addr h
    unfold extractEmailData at h
    rcases (setAddAll_mem_iff [] (raw.map jsNormalize) addr).mp h with hmem | hmem
    · cases hmem
    · rcases List.mem_map.mp hmem with ⟨t, ht, rfl⟩
      exact ⟨t, ht, rfl⟩
  · intro items d hd
    unfold processItems
    rw [List.foldl_append]
    show (match extractEmailDataRet d with
      | some es => setAddAll (processItems [] items) es
      | none => processItems [] items) = processItems [] items
    cases hret : extractEmailDataRet d with
    | none => rfl
    | some es =>
      refine setAddAll_eq_of_subset _ _ fun e he => ?_
      have hes : es = extractEmailData d := by
        unfold extractEmailDataRet at hret
        by_cases hlen : (extractEmailData d).length > 0
        · rw [if_pos hlen] at hret
          exact (Option.some.injEq _ _ ▸ hret).symm ▸ rfl
        · rw [if_neg hlen] at hret
          cases hret
      exact processItems_mem_of_item [] items d hd e (hes ▸ he)

/-- C2 witness: the dedup and lowercasing parts applied at concrete
inputs. -/
theorem harvest_dedup_lowercase_witness :
    (∃ t ∈ ["A@x.Com"], "a@x.com" = jsNormalize t) ∧
    processItems [] ([["a@x.com"], ["b@x.com"]] ++ [["a@x.com"]]) =
      processItems [] [["a@x.com"], ["b@x.com"]] :=
  ⟨harvest_dedup_lowercase.1 ["A@x.Com"] "a@x.com" (by decide),
   harvest_dedup_lowercase.2.1 [["a@x.com"], ["b@x.com"]] ["a@x.com"] (by decide)⟩

/- ============  C3 helper lemmas  ============ -/
theorem find?_isSome_of_mem {α} (l : List α) (p : α → Bool) (x : α)
    (hx : x ∈ l) (hp : p x = true) : (l.find? p).isSome = true := by
  induction l with
  | nil => cases hx
  | cons a as ih =>
    by_cases ha : p a = true
    · simp [List.find?_cons, ha]
    · rcases List.mem_cons.mp hx with rfl | hmem
      · exact absurd hp ha
      · simp only [List.find?_cons]
        rw [Bool.not_eq_true] at ha
        rw [ha]
        exact ih hmem

theorem findSome?_isSome_of_mem {α β} (l : List α) (f : α → Option β) (x : α)
    (hx : x ∈ l) (hf : (f x).isSome = true) : (l.findSome? f).isSome = true := by
  induction l with
  | nil => cases hx
  | cons a as ih =>
    rw [List.findSome?_cons]
    cases hfa : f a with
    | some b => simp
    | none =>
      rcases List.mem_cons.mp hx with rfl | hmem
      · rw [hfa] at hf; cases hf
      · exact ih hmem

theorem handler_true_of_found (sels : List String) (page : LoginPage)
    (h : (sels.find? page.hasSelector).isSome = true) :
    (match sels.find? page.hasSelector with
      | none => false
      | some _ => true) = true := by
  cases hf : sels.find? page.hasSelector with
  | none => rw [hf] at h; cases h
  | some sel => rfl

/-- C3: only the primary-provider strategy verifies the outcome of the
password submission.  (1) `handleMicrosoftLogin` returns `false` when
the page body contains the pattern `Your account or password is
incorrect`, even though password field and submit button were found and
clicked.  (2) It also returns `false` whenever any known error-message
selector matches with non-empty text.  (3-6) Every non-primary strategy
(ADFS, Okta, Azure AD, generic SAML) returns `true` as soon as one of
its password selector candidates matches, for every page — in
particular regardless of any error text the resulting page shows. -/
theorem credential_verification_asymmetry :
    (∀ page : LoginPage,
      page.hasSelector "input[type=\"password\"]" = true →
      page.hasSelector "input[type=\"submit\"]" = true →
      strContains (jsToLower page.bodyText) "your account or password is incorrect" = true →
      handleMicrosoftLogin page = false) ∧
    (∀ (page : LoginPage) (sel t : String),
      page.hasSelector "input[type=\"password\"]" = true →
      page.hasSelector "input[type=\"submit\"]" = true →
      sel ∈ msErrorSelectors → page.queryText sel = some t → jsTrim t ≠ "" →
      handleMicrosoftLogin page = false) ∧
    (∀ page : LoginPage, (∃ sel ∈ adfsPasswordSelectors, page.hasSelector sel = true) →
      handleADFSLogin page = true) ∧
    (∀ page : LoginPage, (∃ sel ∈ oktaPasswordSelectors, page.hasSelector sel = true) →
      handleOktaLogin page = true) ∧
    (∀ page : LoginPage, (∃ sel ∈ azureAdPasswordSelectors, page.hasSelector sel = true) →
      handleAzureADLogin page = true) ∧
    (∀ page : LoginPage, (∃ sel ∈ samlPasswordSelectors, page.hasSelector sel = true) →
      handleGenericSAMLLogin page = true) := by
  refine ⟨?_, ?_, ?_, ?_, ?_, ?_⟩
  · intro page hpw hsub hpat
    have hfind : (msErrorPatterns.find? fun p =>
        strContains (jsToLower page.bodyText) (jsToLower p)).isSome = true := by
      refine find?_isSome_of_mem _ _ "Your account or password is incorrect" (by simp [msErrorPatterns]) ?_
      have : jsToLower "Your account or password is incorrect" =
          "your account or password is incorrect" := by decide
      rw [this]
      exact hpat
    unfold handleMicrosoftLogin
    rw [hpw, hsub]
    simp only [if_true]
    cases hf : msErrorPatterns.find? fun p =>
        strContains (jsToLower page.bodyText) (jsToLower p) with
    | none => rw [hf] at hfind; cases hfind
    | some p => simp [hf]
  · intro page sel t hpw hsub hsel hq ht
    have hfind : (firstSelectorErrorText page).isSome = true := by
      refine findSome?_isSome_of_mem _ _ sel hsel ?_
      simp [hq, ht]
    unfold handleMicrosoftLogin
    rw [hpw, hsub]
    simp only [if_true]
    cases hf : msErrorPatterns.find? fun p =>
        strContains (jsToLower page.bodyText) (jsToLower p) with
    | some p => simp [hf]
    | none =>
      simp only [hf]
      cases hg : firstSelectorErrorText page with
      | none => rw [hg] at hfind; cases hfind
      | some e => simp [hg]
  · intro page ⟨sel, hsel, hp⟩
    exact handler_true_of_found _ page (find?_isSome_of_mem _ _ sel hsel hp)
  · intro page ⟨sel, hsel, hp⟩
    exact handler_true_of_found _ page (find?_isSome_of_mem _ _ sel hsel hp)
  · intro page ⟨sel, hsel, hp⟩
    exact handler_true_of_found _ page (find?_isSome_of_mem _ _ sel hsel hp)
  · intro page ⟨sel, hsel, hp⟩
    exact handler_true_of_found _ page (find?_isSome_of_mem _ _ sel hsel hp)

/-- C3 witness: a concrete page whose body shows the incorrect-password
banner makes the primary handler fail, while the same page lets every
non-primary handler report success. -/
theorem credential_verification_asymmetry_witness :
    handleMicrosoftLogin
      ⟨fun s => s == "input[type=\"password\"]" || s == "input[type=\"submit\"]",
        fun _ => none,
        "Sorry! Your account or password is incorrect."⟩ = false ∧
    handleOktaLogin
      ⟨fun s => s == "input[type=\"password\"]" || s == "input[type=\"submit\"]",
        fun _ => none,
        "Sorry! Your account or password is incorrect."⟩ = true ∧
    handleADFSLogin
      ⟨fun s => s == "input[type=\"password\"]", fun _ => none, ""⟩ = true ∧
    handleAzureADLogin
      ⟨fun s => s == "input[type=\"password\"]", fun _ => none, ""⟩ = true ∧
    handleGenericSAMLLogin
      ⟨fun s => s == "input[type=\"password\"]", fun _ => none, ""⟩ = true := by
  refine ⟨?_, ?_, ?_, ?_, ?_⟩
  · exact credential_verification_asymmetry.1 _ (by decide) (by decide) (by decide)
  · exact credential_verification_asymmetry.2.2.2.1 _
      ⟨"input[type=\"password\"]", by simp [oktaPasswordSelectors], by decide⟩
  · exact credential_verification_asymmetry.2.2.1 _
      ⟨"input[type=\"password\"]", by simp [adfsPasswordSelectors], by decide⟩
  · exact credential_verification_asymmetry.2.2.2.2.1 _
      ⟨"input[type=\"password\"]", by simp [azureAdPasswordSelectors], by decide⟩
  · exact credential_verification_asymmetry.2.2.2.2.2 _
      ⟨"input[type=\"password\"]", by simp [samlPasswordSelectors], by decide⟩

/-- C7: `close()` is idempotent under concurrent invocation.  From a
handle not already closing, exactly one teardown sequence executes, the
final fields are fully reset, and the second call observes the
in-progress flag: it proceeds nowhere and leaves the fields exactly as
the head of the first call left them. -/
theorem close_concurrent_idempotent (s : HandleFields) (h : s.isClosing = false) :
    (overlappedClose s).2 = 1 ∧
    (overlappedClose s).1 = ⟨false, false, false⟩ ∧
    (closeBegin (closeBegin s).1).2 = false ∧
    (closeBegin (closeBegin s).1).1 = (closeBegin s).1 := by
  simp [overlappedClose, closeBegin, closeFinish, h]

/-- C7 witness: the theorem at a live handle. -/
theorem close_concurrent_idempotent_witness :
    (overlappedClose ⟨true, true, false⟩).2 = 1 ∧
    (overlappedClose ⟨true, true, false⟩).1 = ⟨false, false, false⟩ ∧
    (closeBegin (closeBegin ⟨true, true, false⟩).1).2 = false ∧
    (closeBegin (closeBegin ⟨true, true, false⟩).1).1 = (closeBegin ⟨true, true, false⟩).1 :=
  close_concurrent_idempotent ⟨true, true, false⟩ rfl

/-- C8: when the browser launches but page creation fails, `init`
reports the error and leaves both the browser and page fields null —
never a half-configured handle. -/
theorem init_no_partial_handle (attempts : List Bool) (s : HandleFields)
    (h : launchSucceedsWithin3 attempts = true) :
    (initModel attempts false s).1.browserSet = false ∧
    (initModel attempts false s).1.pageSet = false ∧
    (initModel attempts false s).2.isSome = true := by
  simp [initModel, h]

/-- C8 witness: second launch attempt succeeds, page creation fails. -/
theorem init_no_partial_handle_witness :
    (initModel [false, true] false ⟨false, false, false⟩).1.browserSet = false ∧
    (initModel [false, true] false ⟨false, false, false⟩).1.pageSet = false ∧
    (initModel [false, true] false ⟨false, false, false⟩).2.isSome = true :=
  init_no_partial_handle [false, true] ⟨false, false, false⟩ (by decide)

/-- C5 counterexample: a session whose `lastActivity` equals the sweep
instant (well within any timeout) is nevertheless reaped, because the
sweep compares `now - createdAt` against `SESSION_TIMEOUT`
(`server.js` 69) and never reads `lastActivity`. -/
theorem idle_sweep_counterexample :
    (cleanupSweep (SESSION_TIMEOUT + 1)
      (some ⟨"s1", 0, SESSION_TIMEOUT + 1, false⟩) false false).2 = true ∧
    (cleanupSweep (SESSION_TIMEOUT + 1)
      (some ⟨"s1", 0, SESSION_TIMEOUT + 1, false⟩) false false).1 = none ∧
    (SESSION_TIMEOUT + 1) - (⟨"s1", 0, SESSION_TIMEOUT + 1, false⟩ :
      ActiveSession).lastActivity ≤ SESSION_TIMEOUT := by
  refine ⟨by decide, by decide, by decide⟩

/-- C5 (amended): the idle sweep closes the active session exactly when
the mutex is free, no initialisation is in flight, the *age* of the session
(`now - createdAt`) exceeds `SESSION_TIMEOUT`, and the session is not
marked in use; the `lastActivity` timestamp is not consulted at all (the
reap decision is invariant under changing it), and an unreaped session
survives in the slot unchanged. -/
theorem idle_sweep_uses_createdAt (now : Nat) (s : ActiveSession) (m i : Bool) :
    ((cleanupSweep now (some s) m i).2 = true ↔
      (m = false ∧ i = false ∧ SESSION_TIMEOUT < now - s.createdAt ∧ s.inUse = false)) ∧
    (∀ la₁ la₂ : Nat,
      (cleanupSweep now (some ⟨s.sessionId, s.createdAt, la₁, s.inUse⟩) m i).2 =
      (cleanupSweep now (some ⟨s.sessionId, s.createdAt, la₂, s.inUse⟩) m i).2) ∧
    ((cleanupSweep now (some s) m i).2 = false →
      (cleanupSweep now (some s) m i).1 = some s) := by
  refine ⟨?_, ?_, ?_⟩
  · by_cases hc : m = false ∧ i = false ∧
        SESSION_TIMEOUT < now - s.createdAt ∧ s.inUse = false
    · simp [cleanupSweep, hc]
    · simp [cleanupSweep, hc]
  · intro la₁ la₂
    by_cases hc : m = false ∧ i = false ∧
        SESSION_TIMEOUT < now - s.createdAt ∧ s.inUse = false
    · simp [cleanupSweep, hc]
    · simp [cleanupSweep, hc]
  · intro hfalse
    by_cases hc : m = false ∧ i = false ∧
        SESSION_TIMEOUT < now - s.createdAt ∧ s.inUse = false
    · rw [show (cleanupSweep now (some s) m i).2 = true by simp [cleanupSweep, hc]] at hfalse
      cases hfalse
    · simp [cleanupSweep, hc]

/-- C5 witness: a busy session of excessive age is not reaped; an idle
one of the same age is. -/
theorem idle_sweep_uses_createdAt_witness :
    ((cleanupSweep 7200001 (some ⟨"a", 0, 0, true⟩) false false).2 = true ↔
      (false = false ∧ false = false ∧
        SESSION_TIMEOUT < 7200001 - (⟨"a", 0, 0, true⟩ : ActiveSession).createdAt ∧
        (⟨"a", 0, 0, true⟩ : ActiveSession).inUse = false)) ∧
    (∀ la₁ la₂ : Nat,
      (cleanupSweep 7200001 (some ⟨"a", 0, la₁, true⟩) false false).2 =
      (cleanupSweep 7200001 (some ⟨"a", 0, la₂, true⟩) false false).2) ∧
    ((cleanupSweep 7200001 (some ⟨"a", 0, 0, true⟩) false false).2 = false →
      (cleanupSweep 7200001 (some ⟨"a", 0, 0, true⟩) false false).1 =
        some ⟨"a", 0, 0, true⟩) :=
  idle_sweep_uses_createdAt 7200001 ⟨"a", 0, 0, true⟩ false false

/-- C6 counterexample: when the list selector never appears at the start
of the inbox pass, the folder pass returns a bare empty array, the
multi-folder scan completes with `error = none`, and the caller receives
no `warning` — contradicting the claim that an error string is returned
with the empty result and surfaced as a warning. -/
theorem folder_dead_end_warning_counterexample :
    extractEmailsFromFolderRun ⟨false, [["a@x.com"]]⟩ 40 = [] ∧
    (scanAllEmails ⟨false, [["a@x.com"]]⟩ ⟨false, []⟩ 40).error = none ∧
    scanAllWarning (scanAllEmails ⟨false, [["a@x.com"]]⟩ ⟨false, []⟩ 40) = none :=
  ⟨rfl, rfl, rfl⟩

/-- C6 (amended): a hard dead-end (list selector never appears at pass
start) aborts the folder pass with an empty result but *no* error
string — the pass-level `catch` swallows the error and returns `[]` —
and consequently the multi-folder scan completes with its `error` field
unset and no `warning` reaches the caller; the `warning` field is fed
only by the own `catch` of `scanAllEmails`, which the folder dead-end never
triggers. -/
theorem folder_dead_end_no_warning (items : List (List String))
    (sentEnv : FolderEnv) (fuel : Nat) :
    extractEmailsFromFolderRun ⟨false, items⟩ fuel = [] ∧
    (scanAllEmails ⟨false, items⟩ sentEnv fuel).inbox = [] ∧
    (scanAllEmails ⟨false, items⟩ sentEnv fuel).error = none ∧
    scanAllWarning (scanAllEmails ⟨false, items⟩ sentEnv fuel) = none :=
  ⟨rfl, rfl, rfl, rfl⟩

/-- C9: requesting the id of the currently active session returns that
session unchanged with `isNew = false` and zero `close()` invocations;
and whenever a close is invoked at all, the request did not name the
(non-empty) id of the active session — the wholesale close-and-replace path
runs only on a mismatch. -/
theorem getOrCreateSession_match_reuses :
    (∀ (now : Nat) (s : SrvSession) (rid : String),
      rid ≠ "" → s.sessionId = rid →
      getOrCreateSession now (some rid) (some s) = ((rid, false), some s, 0)) ∧
    (∀ (now : Nat) (s : SrvSession) (req : Option String),
      0 < (getOrCreateSession now req (some s)).2.2 →
      req = none ∨ ∀ rid, req = some rid → ¬(rid ≠ "" ∧ s.sessionId = rid)) := by
  constructor
  · intro now s rid hne hid
    subst hid
    simp only [getOrCreateSession]
    rw [if_pos ⟨hne, trivial⟩]
  · intro now s req hcount
    cases req with
    | none => exact Or.inl rfl
    | some rid =>
      refine Or.inr fun r hr hmatch => ?_
      cases hr
      have hmatchEq : getOrCreateSession now (some rid) (some s) =
          ((s.sessionId, false), some s, 0) := by
        simp only [getOrCreateSession]
        rw [if_pos hmatch]
      rw [hmatchEq] at hcount
      exact absurd hcount (by simp)

/-- C9 witness: matching request reuses the session with no close. -/
theorem getOrCreateSession_match_reuses_witness :
    getOrCreateSession 5 (some "42") (some ⟨"42", true, true, 1, false⟩) =
      (("42", false), some ⟨"42", true, true, 1, false⟩, 0) :=
  getOrCreateSession_match_reuses.1 5 ⟨"42", true, true, 1, false⟩ "42"
    (by decide) rfl

/-- One fruitless round steps the loop forward. -/
theorem bccLoopFuel_step_none (env : Nat → Option (List String))
    (fuel round noC : Nat) (acc : List String)
    (hg : round ≤ maxHarvestRounds ∧ noC < maxConsecutiveNoContacts)
    (he : env round = none) :
    bccLoopFuel env (fuel + 1) round noC acc =
      bccLoopFuel env fuel (round + 1) (noC + 1) acc := by
  simp only [bccLoopFuel, if_pos hg, he]

/-- Exiting through the guard. -/
theorem bccLoopFuel_exit_guard (env : Nat → Option (List String))
    (fuel round noC : Nat) (acc : List String)
    (hg : ¬ (round ≤ maxHarvestRounds ∧ noC < maxConsecutiveNoContacts)) :
    bccLoopFuel env (fuel + 1) round noC acc = (acc, round, true) := by
  simp only [bccLoopFuel, if_neg hg]

/-- With fuel at least covering the remaining admissible rounds, the
loop always exits through its guard and the final round counter never
exceeds `maxRounds + 1`. -/
theorem bccLoopFuel_exits (env : Nat → Option (List String)) :
    ∀ (fuel round noC : Nat) (acc : List String),
      maxHarvestRounds + 1 ≤ fuel + round →
      round ≤ maxHarvestRounds + 1 →
      (bccLoopFuel env fuel round noC acc).2.2 = true ∧
      (bccLoopFuel env fuel round noC acc).2.1 ≤ maxHarvestRounds + 1 := by
  intro fuel
  induction fuel with
  | zero =>
    intro round noC acc h1 h2
    refine ⟨?_, h2⟩
    show decide (¬ (round ≤ maxHarvestRounds ∧ noC < maxConsecutiveNoContacts)) = true
    simp only [decide_eq_true_eq]
    rintro ⟨hr, -⟩
    omega
  | succ fuel ih =>
    intro round noC acc h1 h2
    by_cases hg : round ≤ maxHarvestRounds ∧ noC < maxConsecutiveNoContacts
    · simp only [bccLoopFuel, if_pos hg]
      cases henv : env round with
      | none => exact ih (round + 1) (noC + 1) acc (by omega) (by omega)
      | some contacts => exact ih (round + 1) 0 (bccRoundAdd acc contacts) (by omega) (by omega)
    · simp only [bccLoopFuel, if_neg hg]
      exact ⟨trivial, h2⟩

/-- C10: the BCC contact-harvesting loop always terminates.
(1) For every environment, the loop exits through its guard (never by
running out of admissible rounds unaccounted) and completes at most 50
harvest rounds.  (2) When no round ever finds a suggestion container, it
stops early after exactly 3 rounds (final `harvestRound` is 4) with an
empty harvest.  (3) Any internal error is caught at the function
boundary and converted to an empty array. -/
theorem harvestBccContacts_terminates :
    (∀ env : Nat → Option (List String),
      (harvestBccContactsRun env).2.2 = true ∧
      (harvestBccContactsRun env).2.1 - 1 ≤ maxHarvestRounds) ∧
    (∀ env : Nat → Option (List String), (∀ k, env k = none) →
      harvestBccContactsRun env = ([], 4, true)) ∧
    (∀ env : Nat → Option (List String), harvestBccContacts true env = []) := by
  refine ⟨?_, ?_, fun env => rfl⟩
  · intro env
    have h := bccLoopFuel_exits env maxHarvestRounds 1 0 []
      (by omega) (by omega)
    refine ⟨h.1, ?_⟩
    show (bccLoopFuel env maxHarvestRounds 1 0 []).2.1 - 1 ≤ maxHarvestRounds
    have h2 := h.2
    omega
  · intro env henv
    show bccLoopFuel env maxHarvestRounds 1 0 [] = ([], 4, true)
    have hg1 : (1 : Nat) ≤ maxHarvestRounds ∧ (0 : Nat) < maxConsecutiveNoContacts := by
      norm_num [maxHarvestRounds, maxConsecutiveNoContacts]
    have hg2 : (2 : Nat) ≤ maxHarvestRounds ∧ (1 : Nat) < maxConsecutiveNoContacts := by
      norm_num [maxHarvestRounds, maxConsecutiveNoContacts]
    have hg3 : (3 : Nat) ≤ maxHarvestRounds ∧ (2 : Nat) < maxConsecutiveNoContacts := by
      norm_num [maxHarvestRounds, maxConsecutiveNoContacts]
    have e1 : maxHarvestRounds = 49 + 1 := rfl
    rw [e1, bccLoopFuel_step_none env 49 1 0 [] hg1 (henv 1)]
    rw [show (49 : Nat) = 48 + 1 from rfl,
      bccLoopFuel_step_none env 48 2 1 [] hg2 (henv 2)]
    rw [show (48 : Nat) = 47 + 1 from rfl,
      bccLoopFuel_step_none env 47 3 2 [] hg3 (henv 3)]
    show bccLoopFuel env (46 + 1) 4 3 [] = ([], 4, true)
    exact bccLoopFuel_exit_guard env 46 4 3 []
      (by norm_num [maxHarvestRounds, maxConsecutiveNoContacts])

/-- C10 witness: the early-stop applied to the environment that never
finds a container, plus the bound at an environment that always does. -/
theorem harvestBccContacts_terminates_witness :
    harvestBccContactsRun (fun _ => none) = ([], 4, true) ∧
    (harvestBccContactsRun (fun _ => some ["A@x.com"])).2.2 = true ∧
    (harvestBccContactsRun (fun _ => some ["A@x.com"])).2.1 - 1 ≤ maxHarvestRounds :=
  ⟨harvestBccContacts_terminates.2.1 (fun _ => none) (fun _ => rfl),
   (harvestBccContacts_terminates.1 (fun _ => some ["A@x.com"])).1,
   (harvestBccContacts_terminates.1 (fun _ => some ["A@x.com"])).2⟩
